import Mathlib

/-!
Verification of `create_patch.py`: a batch patch-generation script that, for
every file beneath a target directory of a repository, invokes
`git -C <repo> diff <src> <dst> -- <file>` and captures its standard output
into a mirrored `.patch` artifact, deleting the artifact when the diff is
empty or the command fails.

The embedding models paths as lists of components (`Path`), the output-side
filesystem as an explicit record of existing directories and files with
contents (`FSState`), and the external `git diff` invocation as a
deterministic oracle (`DiffFn`) from the two revisions and the file argument
to an exit code, captured standard output and captured standard error.
Observable behaviour (log lines on stdout, error lines on stderr, spawned
subprocess command lines) is recorded as a list of `Event`s.
-/

namespace CreatePatch

/-- A filesystem path, as its list of components (the model of a Python path
string split on the separator). -/
abbrev Path := List String

/-- Render a path as a separator-joined string, as Python would print it. -/
def pathToStr : Path → String
  | [] => ""
  | [c] => c
  | c :: rest => c ++ "/" ++ pathToStr rest

/-- Split a character list on the path separator, accumulating the current
component in reverse. -/
def splitSlashAux : List Char → List Char → List String
  | [], acc => [String.mk acc.reverse]
  | c :: rest, acc =>
    if c = '/' then String.mk acc.reverse :: splitSlashAux rest []
    else splitSlashAux rest (c :: acc)

/-- Parse a path string into its components (the bridge from the string
arguments of `sys.argv` to the component model). -/
def strToPath (s : String) : Path := splitSlashAux s.data []

/-- Model of `os.path.dirname` at the component level. -/
def dirname (p : Path) : Path := p.dropLast

/-- Model of `os.path.relpath p base`, faithful for the inputs this program produces:
every walked filename has the repository root as a component prefix. -/
def relpath (p base : Path) : Path := p.drop base.length

/-- Model of `os.path.basename` at the component level (empty string for the empty
path, which the program never produces). -/
def basenameD (p : Path) : String := (p.getLast?).getD ""

/-- Result of one external `git diff` invocation: exit status, captured
standard output and captured standard error (`text=True`, so both are
strings). -/
structure DiffResult where
  exitCode : Int
  stdout : String
  stderr : String
deriving DecidableEq

/-- The external diff command as a deterministic oracle: a function of the
two revision identifiers and the file argument. -/
abbrev DiffFn := String → String → Path → DiffResult

/-- One observable event of a run: a line on standard output, a line on
standard error, or a spawned subprocess command line. -/
inductive Event where
  | out (line : String)
  | err (line : String)
  | run (args : List String)
deriving DecidableEq

/-- The `log` helper of the script: `print(f"[LOG] {message}")`. -/
def logLine (message : String) : Event := Event.out ("[LOG] " ++ message)

/-- The `error` helper of the script:
`print(f"[ERROR] {message}", file=sys.stderr)`. -/
def errLine (message : String) : Event := Event.err ("[ERROR] " ++ message)

/-- The output-side filesystem: the set of directories that exist and the
files that exist, with their contents. -/
structure FSState where
  dirs : List Path
  files : List (Path × String)
deriving DecidableEq

/-- Content of the file at `p`, if it exists (first matching entry). -/
def lookupFile : List (Path × String) → Path → Option String
  | [], _ => none
  | e :: rest, p => if e.1 = p then some e.2 else lookupFile rest p

/-- Model of `open(p, "w")` and of capture into `p`: create or truncate the file at `p`
with content `c`. -/
def writeFile (p : Path) (c : String) (fs : FSState) : FSState :=
  { fs with files := (p, c) :: fs.files.filter (fun e => decide (e.1 ≠ p)) }

/-- Model of `os.remove p`. -/
def removeFile (p : Path) (fs : FSState) : FSState :=
  { fs with files := fs.files.filter (fun e => decide (e.1 ≠ p)) }

/-- Model of `os.makedirs(p, exist_ok=True)`: `p` and every ancestor of it exist
afterwards. -/
def makedirs (p : Path) (fs : FSState) : FSState :=
  { fs with dirs := p.inits ++ fs.dirs }

/-- Model of `os.path.getsize` of the file at `p` (0 if absent, which the program
never queries). -/
def getsize (fs : FSState) (p : Path) : Nat :=
  ((lookupFile fs.files p).getD "").length

/-- The artifact path computed by `create_patch_for_file` (source lines
25-29): output base directory, then the containing directory of the file
relative to the repository root, then the basename with `.patch` appended. -/
def artifactPath (repo_path output_base_dir filename : Path) : Path :=
  output_base_dir ++ dirname (relpath filename repo_path) ++
    [basenameD filename ++ ".patch"]

/-- The mirrored output subdirectory for one source file (source line 27). -/
def outputSubdir (repo_path output_base_dir filename : Path) : Path :=
  output_base_dir ++ dirname (relpath filename repo_path)

/-- The artifact content that survives the run for one file: the diff's
standard output when the command succeeded and produced output, `none`
otherwise. -/
def expectedArtifact (commit_id_src commit_id_dst : String) (diffFn : DiffFn)
    (filename : Path) : Option String :=
  let res := diffFn commit_id_src commit_id_dst filename
  if res.exitCode = 0 ∧ res.stdout.length ≠ 0 then some res.stdout else none

/-- Embedding of `create_patch_for_file` (source lines 15-55). The file is opened for
writing (creating or truncating it), the diff's standard output is captured
into it, then: on success the zero-size check deletes empty artifacts; on a
non-zero exit status the error text is reported and the artifact is removed
if it exists. -/
def create_patch_for_file (repo_path : Path) (commit_id_src commit_id_dst : String)
    (filename : Path) (output_base_dir : Path) (diffFn : DiffFn) (fs : FSState) :
    FSState × List Event :=
  let relative_path := relpath filename repo_path
  let output_subdir := output_base_dir ++ dirname relative_path
  let patch_filename := basenameD filename ++ ".patch"
  let patch_filepath := output_subdir ++ [patch_filename]
  let fs1 := makedirs output_subdir fs
  let ev1 := logLine ("Creating patch for " ++ pathToStr filename ++ " -> " ++ patch_filename)
  let fs2 := writeFile patch_filepath "" fs1
  let res := diffFn commit_id_src commit_id_dst filename
  let ev2 := Event.run ["git", "-C", pathToStr repo_path, "diff",
    commit_id_src, commit_id_dst, "--", pathToStr filename]
  let fs3 := writeFile patch_filepath res.stdout fs2
  if res.exitCode = 0 then
    if getsize fs3 patch_filepath = 0 then
      (removeFile patch_filepath fs3,
        [ev1, ev2, logLine ("Patch for " ++ pathToStr filename ++ " is empty, skipped.")])
    else
      (fs3, [ev1, ev2, logLine ("Patch created successfully: " ++ patch_filename)])
  else
    let fs4 := if (lookupFile fs3.files patch_filepath).isSome
      then removeFile patch_filepath fs3 else fs3
    (fs4, [ev1, ev2,
      errLine ("Failed to create patch for " ++ pathToStr filename ++ ": " ++ res.stderr)])

/-- The nested `for` loops of `scan_and_create_patches` (source lines 74-77),
flattened over the list of filenames the walk produces, in order. -/
def processFiles (repo_path : Path) (commit_id_src commit_id_dst : String)
    (output_base_dir : Path) (diffFn : DiffFn) (fs : FSState) :
    List Path → FSState × List Event
  | [] => (fs, [])
  | f :: rest =>
    let r1 := create_patch_for_file repo_path commit_id_src commit_id_dst f
      output_base_dir diffFn fs
    let r2 := processFiles repo_path commit_id_src commit_id_dst output_base_dir
      diffFn r1.1 rest
    (r2.1, r1.2 ++ r2.2)

/-- Embedding of `scan_and_create_patches` (source lines 57-77). `targetIsDir` is the
oracle for `os.path.isdir(full_target_dir)`; `walkFiles` is the list of full
filenames `os.walk` enumerates (each `os.path.join(root, file)`). -/
def scan_and_create_patches (repo_path target_dir : Path)
    (commit_id_src commit_id_dst : String) (output_base_dir : Path)
    (targetIsDir : Bool) (walkFiles : List Path) (diffFn : DiffFn) (fs : FSState) :
    FSState × List Event :=
  let full_target_dir := repo_path ++ target_dir
  if targetIsDir then
    let r := processFiles repo_path commit_id_src commit_id_dst output_base_dir
      diffFn fs walkFiles
    (r.1, logLine ("Scanning all files in " ++ pathToStr target_dir) :: r.2)
  else
    (fs, [errLine ("The target directory does not exist or is not a directory: "
      ++ pathToStr full_target_dir)])

/-- Comma-and-space separated concatenation (for the Python list repr in the
startup log line). -/
def commaSep : List String → String
  | [] => ""
  | [x] => x
  | x :: rest => x ++ ", " ++ commaSep rest

/-- A single-quote character, built numerically. -/
def sq : String := String.singleton (Char.ofNat 39)

/-- Python's `repr` of a list of strings, as printed by
`f"... {sys.argv[1:]}"`. -/
def pyReprList (l : List String) : String :=
  "[" ++ commaSep (l.map (fun s => sq ++ s ++ sq)) ++ "]"

/-- The `__main__` block (source lines 79-99). `repoIsDir` is the oracle for
`os.path.isdir(repo_path)`. The first component of the result is the process
exit status. -/
def script_main (argv : List String) (repoIsDir targetIsDir : Bool)
    (walkFiles : List Path) (diffFn : DiffFn) (fs : FSState) :
    Nat × FSState × List Event :=
  if argv.length ≠ 6 then
    (1, fs, [errLine "Usage: python3 script.py <repo_path> <target_dir> <commit_id_src> <commit_id_dst> <output_base_dir>"])
  else
    let repo_path := argv.getD 1 ""
    let target_dir := argv.getD 2 ""
    let commit_id_src := argv.getD 3 ""
    let commit_id_dst := argv.getD 4 ""
    let output_base_dir := argv.getD 5 ""
    let ev0 := logLine ("Starting patch creation with parameters: " ++ pyReprList (argv.drop 1))
    if repoIsDir = false then
      (1, fs, [ev0, errLine ("The repository path does not exist or is not a directory: " ++ repo_path)])
    else
      let outB := strToPath output_base_dir
      let fs1 := if outB ∈ fs.dirs then fs else makedirs outB fs
      let r := scan_and_create_patches (strToPath repo_path) (strToPath target_dir)
        commit_id_src commit_id_dst outB targetIsDir walkFiles diffFn fs1
      (0, r.1, ev0 :: r.2)

/-- The empty output-side filesystem. -/
def emptyFS : FSState := ⟨[], []⟩

/-- Keys of a file table are pairwise distinct (each path has at most one
content). -/
def KeysNodup (l : List (Path × String)) : Prop := (l.map Prod.fst).Nodup

@[simp] theorem makedirs_files (p : Path) (fs : FSState) :
    (makedirs p fs).files = fs.files := rfl

@[simp] theorem writeFile_dirs (p : Path) (c : String) (fs : FSState) :
    (writeFile p c fs).dirs = fs.dirs := rfl

@[simp] theorem removeFile_dirs (p : Path) (fs : FSState) :
    (removeFile p fs).dirs = fs.dirs := rfl

@[simp] theorem getsize_writeFile (p : Path) (c : String) (fs : FSState) :
    getsize (writeFile p c fs) p = c.length := by
  simp [getsize, writeFile, lookupFile]

theorem lookupFile_filter_ne (l : List (Path × String)) (p q : Path) :
    lookupFile (l.filter (fun e => decide (e.1 ≠ p))) q =
      if q = p then none else lookupFile l q := by
  induction l with
  | nil => simp [lookupFile, ite_self]
  | cons e rest ih =>
    by_cases hep : e.1 = p <;> by_cases heq : e.1 = q <;>
      simp_all [List.filter_cons, lookupFile]

theorem lookupFile_writeFile (p : Path) (c : String) (fs : FSState) (q : Path) :
    lookupFile (writeFile p c fs).files q =
      if q = p then some c else lookupFile fs.files q := by
  simp only [writeFile, lookupFile]
  by_cases hq : q = p
  · rw [if_pos hq.symm, if_pos hq]
  · rw [if_neg (fun h => hq h.symm), lookupFile_filter_ne, if_neg hq, if_neg hq]

theorem lookupFile_removeFile (p : Path) (fs : FSState) (q : Path) :
    lookupFile (removeFile p fs).files q =
      if q = p then none else lookupFile fs.files q := by
  simp only [removeFile]
  exact lookupFile_filter_ne fs.files p q

/-- Lookup through the write-write-makedirs sequence that every branch of
`create_patch_for_file` performs before its outcome-specific step. -/
theorem lookupFile_wwm (P : Path) (s s' : String) (O : Path) (fs : FSState) (q : Path) :
    lookupFile (writeFile P s (writeFile P s' (makedirs O fs))).files q =
      if q = P then some s else lookupFile fs.files q := by
  by_cases hq : q = P
  · rw [lookupFile_writeFile, if_pos hq, if_pos hq]
  · rw [lookupFile_writeFile, if_neg hq, lookupFile_writeFile, if_neg hq, makedirs_files,
      if_neg hq]

/-- Net effect of `create_patch_for_file` on the file table: the artifact
path now holds exactly `expectedArtifact` (the diff's stdout on a
successful, non-empty diff; absent otherwise), and no other path changed. -/
theorem create_patch_lookup (repo : Path) (src dst : String) (f outBase : Path)
    (d : DiffFn) (fs : FSState) (q : Path) :
    lookupFile (create_patch_for_file repo src dst f outBase d fs).1.files q =
      (if q = artifactPath repo outBase f then expectedArtifact src dst d f
       else lookupFile fs.files q) := by
  simp only [create_patch_for_file, artifactPath, expectedArtifact]
  by_cases h0 : (d src dst f).exitCode = 0
  · rw [if_pos h0]
    by_cases h1 : (d src dst f).stdout.length = 0
    · rw [if_pos (by rw [getsize_writeFile]; exact h1), lookupFile_removeFile]
      by_cases hq : q = outBase ++ dirname (relpath f repo) ++ [basenameD f ++ ".patch"]
      · rw [if_pos hq, if_pos hq, if_neg (fun hc => hc.2 h1)]
      · rw [if_neg hq, lookupFile_wwm, if_neg hq, if_neg hq]
    · rw [if_neg (by rw [getsize_writeFile]; exact h1), lookupFile_wwm]
      by_cases hq : q = outBase ++ dirname (relpath f repo) ++ [basenameD f ++ ".patch"]
      · rw [if_pos hq, if_pos hq, if_pos ⟨h0, h1⟩]
      · rw [if_neg hq, if_neg hq]
  · rw [if_neg h0,
      if_pos (by rw [lookupFile_writeFile, if_pos rfl]; rfl), lookupFile_removeFile]
    by_cases hq : q = outBase ++ dirname (relpath f repo) ++ [basenameD f ++ ".patch"]
    · rw [if_pos hq, if_pos hq, if_neg (fun hc => h0 hc.1)]
    · rw [if_neg hq, lookupFile_wwm, if_neg hq, if_neg hq]

/-- Each `create_patch_for_file` call creates the mirrored output subdirectory (and its
ancestors), and touches no other directory. -/
theorem create_patch_dirs (repo : Path) (src dst : String) (f outBase : Path)
    (d : DiffFn) (fs : FSState) :
    (create_patch_for_file repo src dst f outBase d fs).1.dirs =
      (outputSubdir repo outBase f).inits ++ fs.dirs := by
  simp only [create_patch_for_file, outputSubdir]
  by_cases h0 : (d src dst f).exitCode = 0
  · rw [if_pos h0]
    by_cases h1 : (d src dst f).stdout.length = 0
    · rw [if_pos (by rw [getsize_writeFile]; exact h1)]; rfl
    · rw [if_neg (by rw [getsize_writeFile]; exact h1)]; rfl
  · rw [if_neg h0, if_pos (by rw [lookupFile_writeFile, if_pos rfl]; rfl)]; rfl

/-- The events of one `create_patch_for_file` call do not depend on the
incoming filesystem state. -/
theorem create_patch_events_indep (repo : Path) (src dst : String) (f outBase : Path)
    (d : DiffFn) (fs fs' : FSState) :
    (create_patch_for_file repo src dst f outBase d fs).2 =
      (create_patch_for_file repo src dst f outBase d fs').2 := by
  by_cases h0 : (d src dst f).exitCode = 0 <;>
    by_cases h1 : (d src dst f).stdout.length = 0 <;>
      simp [create_patch_for_file, h0, h1]

/-- On a failed diff, the per-file events are: the progress log line, the
spawned command, then the error line carrying the captured stderr. -/
theorem create_patch_events_fail (repo : Path) (src dst : String) (f outBase : Path)
    (d : DiffFn) (fs : FSState) (h : (d src dst f).exitCode ≠ 0) :
    (create_patch_for_file repo src dst f outBase d fs).2 =
      [logLine ("Creating patch for " ++ pathToStr f ++ " -> " ++ (basenameD f ++ ".patch")),
       Event.run ["git", "-C", pathToStr repo, "diff", src, dst, "--", pathToStr f],
       errLine ("Failed to create patch for " ++ pathToStr f ++ ": " ++ (d src dst f).stderr)] := by
  simp [create_patch_for_file, h]

/-- On a successful but empty diff, the per-file events end with the skip
log line. -/
theorem create_patch_events_empty (repo : Path) (src dst : String) (f outBase : Path)
    (d : DiffFn) (fs : FSState) (h0 : (d src dst f).exitCode = 0)
    (h1 : (d src dst f).stdout = "") :
    (create_patch_for_file repo src dst f outBase d fs).2 =
      [logLine ("Creating patch for " ++ pathToStr f ++ " -> " ++ (basenameD f ++ ".patch")),
       Event.run ["git", "-C", pathToStr repo, "diff", src, dst, "--", pathToStr f],
       logLine ("Patch for " ++ pathToStr f ++ " is empty, skipped.")] := by
  simp [create_patch_for_file, h0, h1]

/-- Every call emits its progress log line, whatever the diff outcome. -/
theorem create_patch_events_mem_log (repo : Path) (src dst : String) (f outBase : Path)
    (d : DiffFn) (fs : FSState) :
    logLine ("Creating patch for " ++ pathToStr f ++ " -> " ++ (basenameD f ++ ".patch"))
      ∈ (create_patch_for_file repo src dst f outBase d fs).2 := by
  by_cases h0 : (d src dst f).exitCode = 0 <;>
    by_cases h1 : (d src dst f).stdout.length = 0 <;>
      simp [create_patch_for_file, h0, h1]

/-- Every call emits the spawned diff command as an event, whatever the diff
outcome. -/
theorem create_patch_events_mem_run (repo : Path) (src dst : String) (f outBase : Path)
    (d : DiffFn) (fs : FSState) :
    Event.run ["git", "-C", pathToStr repo, "diff", src, dst, "--", pathToStr f]
      ∈ (create_patch_for_file repo src dst f outBase d fs).2 := by
  by_cases h0 : (d src dst f).exitCode = 0 <;>
    by_cases h1 : (d src dst f).stdout.length = 0 <;>
      simp [create_patch_for_file, h0, h1]

theorem string_data_inj {a b : String} (h : a.data = b.data) : a = b := by
  cases a; cases b; simp_all

theorem getLast?_eq_some_of_ne_nil : ∀ {l : Path}, l ≠ [] → ∃ a, l.getLast? = some a
  | [], h => absurd rfl h
  | [x], _ => ⟨x, rfl⟩
  | x :: y :: rest, _ => by
    obtain ⟨a, ha⟩ := getLast?_eq_some_of_ne_nil (l := y :: rest) (by simp)
    exact ⟨a, by rw [List.getLast?_cons_cons, ha]⟩

theorem dropLast_append_basenameD {l : Path} (h : l ≠ []) :
    dirname l ++ [basenameD l] = l := by
  obtain ⟨a, ha⟩ := getLast?_eq_some_of_ne_nil h
  have hb : basenameD l = a := by rw [basenameD, ha]; rfl
  rw [hb]
  exact List.dropLast_append_getLast? a ha

theorem path_eq_of_parts {s t : Path} (hs : s ≠ []) (ht : t ≠ [])
    (h1 : dirname s = dirname t) (h2 : basenameD s = basenameD t) : s = t := by
  rw [← dropLast_append_basenameD hs, ← dropLast_append_basenameD ht, h1, h2]

/-- Distinct walked files (full paths strictly below the repository root)
have distinct artifact paths: the artifact layout mirrors the source
layout. -/
theorem artifactPath_inj (repo outBase : Path) {f g : Path}
    (hf : ∃ s, s ≠ [] ∧ f = repo ++ s) (hg : ∃ s, s ≠ [] ∧ g = repo ++ s)
    (h : artifactPath repo outBase f = artifactPath repo outBase g) : f = g := by
  obtain ⟨s, hs, rfl⟩ := hf
  obtain ⟨t, ht, rfl⟩ := hg
  have hrs : relpath (repo ++ s) repo = s := List.drop_left repo s
  have hrt : relpath (repo ++ t) repo = t := List.drop_left repo t
  have hbs : basenameD (repo ++ s) = basenameD s := by
    rw [basenameD, basenameD, List.getLast?_append_of_ne_nil repo hs]
  have hbt : basenameD (repo ++ t) = basenameD t := by
    rw [basenameD, basenameD, List.getLast?_append_of_ne_nil repo ht]
  rw [artifactPath, artifactPath, hrs, hrt, hbs, hbt, List.append_assoc,
    List.append_assoc] at h
  have h2 := List.append_cancel_left h
  have hlast : basenameD s ++ ".patch" = basenameD t ++ ".patch" := by
    have h3 := congrArg List.getLast? h2
    rw [List.getLast?_append_of_ne_nil _ (by simp),
      List.getLast?_append_of_ne_nil _ (by simp)] at h3
    simpa using h3
  have hname : basenameD s = basenameD t := by
    have hd := congrArg String.data hlast
    rw [String.data_append, String.data_append] at hd
    exact string_data_inj (List.append_cancel_right hd)
  rw [hlast] at h2
  have hdir : dirname s = dirname t := List.append_cancel_right h2
  rw [path_eq_of_parts hs ht hdir hname]

/-- Net effect of the whole scan on the file table, for a duplicate-free
list of walked files each strictly below the repository root: the path `q`
holds the expected artifact of the first (hence only) walked file whose
artifact path is `q`, and is untouched if no walked file maps to it. -/
theorem processFiles_lookup (repo : Path) (src dst : String) (outBase : Path) (d : DiffFn) :
    ∀ (files : List Path) (fs : FSState) (q : Path), files.Nodup →
    (∀ f ∈ files, ∃ s, s ≠ [] ∧ f = repo ++ s) →
    lookupFile (processFiles repo src dst outBase d fs files).1.files q =
      (match files.find? (fun g => decide (artifactPath repo outBase g = q)) with
       | some g => expectedArtifact src dst d g
       | none => lookupFile fs.files q) := by
  intro files
  induction files with
  | nil => intro fs q _ _; rfl
  | cons f rest ih =>
    intro fs q hnd hpref
    have hndr : rest.Nodup := (List.nodup_cons.mp hnd).2
    have hfnr : f ∉ rest := (List.nodup_cons.mp hnd).1
    have hprefr : ∀ g ∈ rest, ∃ s, s ≠ [] ∧ g = repo ++ s :=
      fun g hg => hpref g (List.mem_cons_of_mem f hg)
    have hstep : (processFiles repo src dst outBase d fs (f :: rest)).1
        = (processFiles repo src dst outBase d
            (create_patch_for_file repo src dst f outBase d fs).1 rest).1 := rfl
    rw [hstep, ih _ q hndr hprefr]
    by_cases hq : artifactPath repo outBase f = q
    · have hfc : (f :: rest).find? (fun g => decide (artifactPath repo outBase g = q))
          = some f := by simp [List.find?_cons, hq]
      rw [hfc]
      cases hfind : rest.find? (fun g => decide (artifactPath repo outBase g = q)) with
      | none => rw [create_patch_lookup, if_pos hq.symm]
      | some g =>
        have hmem := List.mem_of_find?_eq_some hfind
        have hga : artifactPath repo outBase g = q := of_decide_eq_true
          (List.find?_some (p := fun g => decide (artifactPath repo outBase g = q)) hfind)
        have hgf : g = f := artifactPath_inj repo outBase (hprefr g hmem)
          (hpref f (List.mem_cons_self f rest)) (hga.trans hq.symm)
        exact absurd (hgf ▸ hmem) hfnr
    · have hfc : (f :: rest).find? (fun g => decide (artifactPath repo outBase g = q))
          = rest.find? (fun g => decide (artifactPath repo outBase g = q)) := by
        simp [List.find?_cons, hq]
      rw [hfc]
      cases hfind : rest.find? (fun g => decide (artifactPath repo outBase g = q)) with
      | none => rw [create_patch_lookup, if_neg (fun h => hq h.symm)]
      | some g => rfl

theorem keysNodup_filter (l : List (Path × String)) (p : Path) (h : KeysNodup l) :
    KeysNodup (l.filter (fun e => decide (e.1 ≠ p))) :=
  h.sublist (List.Sublist.map Prod.fst (List.filter_sublist l))

theorem keysNodup_writeFile (p : Path) (c : String) (fs : FSState)
    (h : KeysNodup fs.files) : KeysNodup (writeFile p c fs).files := by
  rw [KeysNodup, writeFile, List.map_cons, List.nodup_cons]
  refine ⟨fun hmem => ?_, keysNodup_filter fs.files p h⟩
  obtain ⟨e, he, hfst⟩ := List.mem_map.mp hmem
  have hne : e.1 ≠ p := of_decide_eq_true ((List.mem_filter.mp he).2)
  exact hne hfst

theorem keysNodup_removeFile (p : Path) (fs : FSState)
    (h : KeysNodup fs.files) : KeysNodup (removeFile p fs).files :=
  keysNodup_filter fs.files p h

theorem keysNodup_create (repo : Path) (src dst : String) (f outBase : Path)
    (d : DiffFn) (fs : FSState) (h : KeysNodup fs.files) :
    KeysNodup (create_patch_for_file repo src dst f outBase d fs).1.files := by
  simp only [create_patch_for_file]
  by_cases h0 : (d src dst f).exitCode = 0
  · rw [if_pos h0]
    by_cases h1 : (d src dst f).stdout.length = 0
    · rw [if_pos (by rw [getsize_writeFile]; exact h1)]
      exact keysNodup_removeFile _ _ (keysNodup_writeFile _ _ _ (keysNodup_writeFile _ _ _ h))
    · rw [if_neg (by rw [getsize_writeFile]; exact h1)]
      exact keysNodup_writeFile _ _ _ (keysNodup_writeFile _ _ _ h)
  · rw [if_neg h0, if_pos (by rw [lookupFile_writeFile, if_pos rfl]; rfl)]
    exact keysNodup_removeFile _ _ (keysNodup_writeFile _ _ _ (keysNodup_writeFile _ _ _ h))

theorem keysNodup_processFiles (repo : Path) (src dst : String) (outBase : Path)
    (d : DiffFn) : ∀ (files : List Path) (fs : FSState), KeysNodup fs.files →
    KeysNodup (processFiles repo src dst outBase d fs files).1.files := by
  intro files
  induction files with
  | nil => intro fs h; exact h
  | cons f rest ih =>
    intro fs h
    exact ih _ (keysNodup_create repo src dst f outBase d fs h)

/-- In a duplicate-free file table, membership of an entry is the same as a
successful lookup. -/
theorem mem_iff_lookupFile : ∀ {l : List (Path × String)}, KeysNodup l →
    ∀ (p : Path) (c : String), ((p, c) ∈ l ↔ lookupFile l p = some c) := by
  intro l
  induction l with
  | nil => intro _ p c; simp [lookupFile]
  | cons e rest ih =>
    intro h p c
    rw [KeysNodup, List.map_cons, List.nodup_cons] at h
    simp only [lookupFile]
    by_cases hep : e.1 = p
    · rw [if_pos hep]
      constructor
      · intro hmem
        rcases List.mem_cons.mp hmem with heq | hmem'
        · rw [← heq]
        · exact absurd (hep ▸ List.mem_map_of_mem Prod.fst hmem') h.1
      · intro hlook
        have he : e = (p, c) := Prod.ext hep (Option.some.inj hlook)
        rw [he]
        exact List.mem_cons_self _ _
    · rw [if_neg hep]
      rw [List.mem_cons]
      constructor
      · rintro (heq | hmem')
        · exact absurd (congrArg Prod.fst heq).symm hep
        · exact (ih h.2 p c).mp hmem'
      · intro hlook
        exact Or.inr ((ih h.2 p c).mpr hlook)

/-- Any entry of a successful lookup is an entry of the table. -/
theorem lookupFile_mem : ∀ {l : List (Path × String)} {p : Path} {c : String},
    lookupFile l p = some c → (p, c) ∈ l := by
  intro l
  induction l with
  | nil => intro p c h; exact absurd h (by simp [lookupFile])
  | cons e rest ih =>
    intro p c h
    simp only [lookupFile] at h
    by_cases hep : e.1 = p
    · rw [if_pos hep] at h
      have he : e = (p, c) := Prod.ext hep (Option.some.inj h)
      rw [he]
      exact List.mem_cons_self _ _
    · rw [if_neg hep] at h
      exact List.mem_cons_of_mem e (ih h)

/-- Every event of the processing of a member file occurs among the events
of the whole scan (the run continues past failures and skips). -/
theorem processFiles_events_mem (repo : Path) (src dst : String) (outBase : Path)
    (d : DiffFn) : ∀ (files : List Path) (fs : FSState) (f : Path), f ∈ files →
    ∀ e, e ∈ (create_patch_for_file repo src dst f outBase d emptyFS).2 →
    e ∈ (processFiles repo src dst outBase d fs files).2 := by
  intro files
  induction files with
  | nil => intro fs f hf; exact absurd hf (by simp)
  | cons g rest ih =>
    intro fs f hf e he
    have hstep : (processFiles repo src dst outBase d fs (g :: rest)).2
        = (create_patch_for_file repo src dst g outBase d fs).2
          ++ (processFiles repo src dst outBase d
              (create_patch_for_file repo src dst g outBase d fs).1 rest).2 := rfl
    rw [hstep, List.mem_append]
    rcases List.mem_cons.mp hf with rfl | hf'
    · exact Or.inl (create_patch_events_indep repo src dst f outBase d fs emptyFS ▸ he)
    · exact Or.inr (ih _ f hf' e he)

theorem processFiles_dirs_mono (repo : Path) (src dst : String) (outBase : Path)
    (d : DiffFn) : ∀ (files : List Path) (fs : FSState) (dp : Path), dp ∈ fs.dirs →
    dp ∈ (processFiles repo src dst outBase d fs files).1.dirs := by
  intro files
  induction files with
  | nil => intro fs dp h; exact h
  | cons f rest ih =>
    intro fs dp h
    refine ih _ dp ?_
    rw [create_patch_dirs]
    exact List.mem_append_right _ h

/-- The mirrored output subdirectory of every walked file exists after the
scan, whatever each diff returned. -/
theorem processFiles_dirs_mem (repo : Path) (src dst : String) (outBase : Path)
    (d : DiffFn) : ∀ (files : List Path) (fs : FSState) (f : Path), f ∈ files →
    outputSubdir repo outBase f ∈ (processFiles repo src dst outBase d fs files).1.dirs := by
  intro files
  induction files with
  | nil => intro fs f hf; exact absurd hf (by simp)
  | cons g rest ih =>
    intro fs f hf
    rcases List.mem_cons.mp hf with rfl | hf'
    · refine processFiles_dirs_mono repo src dst outBase d rest _ _ ?_
      rw [create_patch_dirs]
      exact List.mem_append_left _ ((List.mem_inits _ _).mpr ⟨[], by simp⟩)
    · exact ih _ f hf'

/-- Which directories exist after the scan does not depend on the diff
outcomes: directories are created before each diff runs and never removed. -/
theorem processFiles_dirs_indep (repo : Path) (src dst : String) (outBase : Path)
    (d₁ d₂ : DiffFn) : ∀ (files : List Path) (fs₁ fs₂ : FSState), fs₁.dirs = fs₂.dirs →
    (processFiles repo src dst outBase d₁ fs₁ files).1.dirs =
      (processFiles repo src dst outBase d₂ fs₂ files).1.dirs := by
  intro files
  induction files with
  | nil => intro fs₁ fs₂ h; exact h
  | cons f rest ih =>
    intro fs₁ fs₂ h
    refine ih _ _ ?_
    rw [create_patch_dirs, create_patch_dirs, h]

theorem ite_makedirs_files (c : Prop) [Decidable c] (p : Path) (fs : FSState) :
    (if c then fs else makedirs p fs).files = fs.files := by
  split <;> rfl

theorem relpath_append (repo s : Path) : relpath (repo ++ s) repo = s :=
  List.drop_left repo s

theorem basenameD_append (repo s : Path) (hs : s ≠ []) :
    basenameD (repo ++ s) = basenameD s := by
  rw [basenameD, basenameD, List.getLast?_append_of_ne_nil repo hs]

/-- Unfolding of `script_main` on six arguments and an existing repository. -/
theorem script_main_sixlist (a0 a1 a2 a3 a4 a5 : String) (tI : Bool) (wf : List Path)
    (d : DiffFn) (fs : FSState) :
    script_main [a0, a1, a2, a3, a4, a5] true tI wf d fs =
      (0,
       (scan_and_create_patches (strToPath a1) (strToPath a2) a3 a4 (strToPath a5) tI wf d
          (if strToPath a5 ∈ fs.dirs then fs else makedirs (strToPath a5) fs)).1,
       logLine ("Starting patch creation with parameters: " ++ pyReprList [a1, a2, a3, a4, a5])
         :: (scan_and_create_patches (strToPath a1) (strToPath a2) a3 a4 (strToPath a5) tI wf d
              (if strToPath a5 ∈ fs.dirs then fs else makedirs (strToPath a5) fs)).2) := rfl

/-- Unfolding of `scan_and_create_patches` when the target directory exists. -/
theorem scan_true (repo target : Path) (src dst : String) (outBase : Path)
    (wf : List Path) (d : DiffFn) (fs : FSState) :
    scan_and_create_patches repo target src dst outBase true wf d fs =
      ((processFiles repo src dst outBase d fs wf).1,
       logLine ("Scanning all files in " ++ pathToStr target)
         :: (processFiles repo src dst outBase d fs wf).2) := rfl

/-- Behaviour of `scan_and_create_patches` when the target directory is missing: the
filesystem is untouched and only the error line is emitted. -/
theorem scan_false (repo target : Path) (src dst : String) (outBase : Path)
    (wf : List Path) (d : DiffFn) (fs : FSState) :
    scan_and_create_patches repo target src dst outBase false wf d fs =
      (fs, [errLine ("The target directory does not exist or is not a directory: "
        ++ pathToStr (repo ++ target))]) := rfl

/-- Lookup in the final file table of a full successful run. -/
theorem script_main_lookup (a0 a1 a2 a3 a4 a5 : String) (wf : List Path) (d : DiffFn)
    (fs : FSState) (q : Path) (hN : wf.Nodup)
    (hp : ∀ f ∈ wf, ∃ s, s ≠ [] ∧ f = strToPath a1 ++ s) :
    lookupFile (script_main [a0, a1, a2, a3, a4, a5] true true wf d fs).2.1.files q =
      (match wf.find? (fun g => decide (artifactPath (strToPath a1) (strToPath a5) g = q)) with
       | some g => expectedArtifact a3 a4 d g
       | none => lookupFile fs.files q) := by
  have h1 : (script_main [a0, a1, a2, a3, a4, a5] true true wf d fs).2.1
      = (processFiles (strToPath a1) a3 a4 (strToPath a5) d
          (if strToPath a5 ∈ fs.dirs then fs else makedirs (strToPath a5) fs) wf).1 := rfl
  rw [h1, processFiles_lookup (strToPath a1) a3 a4 (strToPath a5) d wf _ q hN hp]
  cases hfind : wf.find? (fun g => decide (artifactPath (strToPath a1) (strToPath a5) g = q)) with
  | some g => rfl
  | none => rw [ite_makedirs_files]

/-- A full successful run preserves key-uniqueness of the file table. -/
theorem script_main_keys_tt (a0 a1 a2 a3 a4 a5 : String) (wf : List Path) (d : DiffFn)
    (fs : FSState) (h : KeysNodup fs.files) :
    KeysNodup (script_main [a0, a1, a2, a3, a4, a5] true true wf d fs).2.1.files := by
  have h1 : (script_main [a0, a1, a2, a3, a4, a5] true true wf d fs).2.1
      = (processFiles (strToPath a1) a3 a4 (strToPath a5) d
          (if strToPath a5 ∈ fs.dirs then fs else makedirs (strToPath a5) fs) wf).1 := rfl
  rw [h1]
  apply keysNodup_processFiles
  rw [ite_makedirs_files]
  exact h

/-- Every event of the inner scan appears among the events of the full run. -/
theorem script_main_tt_events_mem (a0 a1 a2 a3 a4 a5 : String) (wf : List Path)
    (d : DiffFn) (fs : FSState) (e : Event)
    (he : e ∈ (processFiles (strToPath a1) a3 a4 (strToPath a5) d
        (if strToPath a5 ∈ fs.dirs then fs else makedirs (strToPath a5) fs) wf).2) :
    e ∈ (script_main [a0, a1, a2, a3, a4, a5] true true wf d fs).2.2 :=
  List.mem_cons_of_mem _ (List.mem_cons_of_mem _ he)

/-- Behaviour of `script_main` with a wrong argument count: usage error, exit status 1,
nothing else happens. -/
theorem script_main_badargs (argv : List String) (rI tI : Bool) (wf : List Path)
    (d : DiffFn) (fs : FSState) (h : argv.length ≠ 6) :
    script_main argv rI tI wf d fs =
      (1, fs, [errLine "Usage: python3 script.py <repo_path> <target_dir> <commit_id_src> <commit_id_dst> <output_base_dir>"]) := by
  unfold script_main
  rw [if_pos h]

/-- Behaviour of `script_main` with six arguments but a missing repository directory:
startup log, error line, exit status 1. -/
theorem script_main_badrepo (argv : List String) (tI : Bool) (wf : List Path)
    (d : DiffFn) (fs : FSState) (h : argv.length = 6) :
    script_main argv false tI wf d fs =
      (1, fs,
       [logLine ("Starting patch creation with parameters: " ++ pyReprList (argv.drop 1)),
        errLine ("The repository path does not exist or is not a directory: "
          ++ argv.getD 1 "")]) := by
  simp only [script_main]
  rw [if_neg (fun hcon => hcon h), if_pos trivial]

/-- Behaviour of `script_main` with six arguments and an existing repository: exit 0. -/
theorem script_main_goodrepo_exit (argv : List String) (tI : Bool) (wf : List Path)
    (d : DiffFn) (fs : FSState) (h : argv.length = 6) :
    (script_main argv true tI wf d fs).1 = 0 := by
  simp only [script_main]
  rw [if_neg (fun hcon => hcon h), if_neg (fun hcon => Bool.noConfusion hcon)]

/-- Claim C4 is false as stated: at a concrete walked file `repo/src/a.c`
the diff command is invoked with the file's full walked path
(`repo/src/a.c`), not with its path relative to the repository root
(`src/a.c`); the relative path is computed but used only for the output
artifact location. -/
theorem c4_counterexample :
    Event.run ["git", "-C", "repo", "diff", "v1", "v2", "--", "src/a.c"]
      ∉ (create_patch_for_file ["repo"] "v1" "v2" ["repo", "src", "a.c"] ["out"]
          (fun _ _ _ => ⟨0, "x", ""⟩) emptyFS).2
    ∧ Event.run ["git", "-C", "repo", "diff", "v1", "v2", "--", "repo/src/a.c"]
      ∈ (create_patch_for_file ["repo"] "v1" "v2" ["repo", "src", "a.c"] ["out"]
          (fun _ _ _ => ⟨0, "x", ""⟩) emptyFS).2 := by
  decide

/-- Claim C4 (amended): for every processed file, the external command is
invoked as `git -C <repo_path> diff <commit_id_src> <commit_id_dst> --
<file_path>` with the repository root as working context, where the file
path argument is the file's full path as produced by the directory walk
(not the path relative to the repository root). -/
theorem c4_command_invocation (repo : Path) (src dst : String) (f outBase : Path)
    (d : DiffFn) (fs : FSState) :
    Event.run ["git", "-C", pathToStr repo, "diff", src, dst, "--", pathToStr f]
      ∈ (create_patch_for_file repo src dst f outBase d fs).2 :=
  create_patch_events_mem_run repo src dst f outBase d fs

/-- Claim C5: a kept artifact lives at the output base directory, joined
with the source file's containing directory relative to the repository
root, joined with the source filename with `.patch` appended to the full
name, and every parent directory of that path exists before (and after)
the write. -/
theorem c5_artifact_layout (repo : Path) (src dst : String) (outBase : Path)
    (d : DiffFn) (fs : FSState) (s : Path) (hs : s ≠ []) (c : String)
    (hkept : expectedArtifact src dst d (repo ++ s) = some c) :
    (outBase ++ dirname s ++ [basenameD s ++ ".patch"], c)
      ∈ (create_patch_for_file repo src dst (repo ++ s) outBase d fs).1.files
    ∧ ∀ pfx ∈ (outBase ++ dirname s).inits,
        pfx ∈ (create_patch_for_file repo src dst (repo ++ s) outBase d fs).1.dirs := by
  have hart : artifactPath repo outBase (repo ++ s)
      = outBase ++ dirname s ++ [basenameD s ++ ".patch"] := by
    rw [artifactPath, relpath_append, basenameD_append repo s hs]
  constructor
  · have h1 : lookupFile (create_patch_for_file repo src dst (repo ++ s) outBase d fs).1.files
        (artifactPath repo outBase (repo ++ s)) = some c := by
      rw [create_patch_lookup, if_pos rfl, hkept]
    rw [← hart]
    exact lookupFile_mem h1
  · intro pfx hpfx
    rw [create_patch_dirs]
    apply List.mem_append_left
    show pfx ∈ (outBase ++ dirname (relpath (repo ++ s) repo)).inits
    rw [relpath_append]
    exact hpfx

/-- Claim C5 witness: a source file `r/src/foo.c` with a successful
non-empty diff yields the artifact `out/src/foo.c.patch` (the `.patch`
suffix is appended to the full name), with the mirrored directories
created. -/
theorem c5_artifact_layout_witness :
    ((["out"] : Path) ++ dirname ["src", "foo.c"] ++ [basenameD ["src", "foo.c"] ++ ".patch"], "x")
      ∈ (create_patch_for_file ["r"] "v1" "v2" (["r"] ++ ["src", "foo.c"]) ["out"]
          (fun _ _ _ => ⟨0, "x", ""⟩) emptyFS).1.files
    ∧ ∀ pfx ∈ ((["out"] : Path) ++ dirname ["src", "foo.c"]).inits,
        pfx ∈ (create_patch_for_file ["r"] "v1" "v2" (["r"] ++ ["src", "foo.c"]) ["out"]
          (fun _ _ _ => ⟨0, "x", ""⟩) emptyFS).1.dirs :=
  c5_artifact_layout ["r"] "v1" "v2" ["out"] (fun _ _ _ => ⟨0, "x", ""⟩) emptyFS
    ["src", "foo.c"] (by decide) "x" (by decide)

/-- Claim C6: the process exits with status 1 exactly when the argument
count is not five positional arguments (then the usage message goes to the
error stream) or the repository path is not an existing directory; with
five arguments and an existing repository it exits 0, whatever happened to
individual files. -/
theorem c6_exit_codes (argv : List String) (rI tI : Bool) (wf : List Path)
    (d : DiffFn) (fs : FSState) :
    ((script_main argv rI tI wf d fs).1 = 1 ↔ (argv.length ≠ 6 ∨ rI = false))
    ∧ (argv.length ≠ 6 →
        errLine "Usage: python3 script.py <repo_path> <target_dir> <commit_id_src> <commit_id_dst> <output_base_dir>"
          ∈ (script_main argv rI tI wf d fs).2.2)
    ∧ (argv.length = 6 → rI = true → (script_main argv rI tI wf d fs).1 = 0) := by
  by_cases hlen : argv.length = 6
  · cases rI
    · rw [script_main_badrepo argv tI wf d fs hlen]
      refine ⟨⟨fun _ => Or.inr rfl, fun _ => rfl⟩, fun hcon => absurd hlen hcon, ?_⟩
      intro _ hcon
      exact Bool.noConfusion hcon
    · refine ⟨⟨?_, ?_⟩, fun hcon => absurd hlen hcon,
        fun _ _ => script_main_goodrepo_exit argv tI wf d fs hlen⟩
      · intro h1
        rw [script_main_goodrepo_exit argv tI wf d fs hlen] at h1
        exact absurd h1 (by decide)
      · rintro (hcon | hcon)
        · exact absurd hlen hcon
        · exact Bool.noConfusion hcon
  · rw [script_main_badargs argv rI tI wf d fs hlen]
    exact ⟨⟨fun _ => Or.inl hlen, fun _ => rfl⟩, fun _ => List.mem_cons_self _ _,
      fun h => absurd h hlen⟩

/-- Claim C6 witness: a run with a single argument exits 1 and prints the
usage line to the error stream. -/
theorem c6_exit_codes_witness :
    (script_main ["x"] true true [] (fun _ _ _ => ⟨0, "", ""⟩) emptyFS).1 = 1
    ∧ errLine "Usage: python3 script.py <repo_path> <target_dir> <commit_id_src> <commit_id_dst> <output_base_dir>"
        ∈ (script_main ["x"] true true [] (fun _ _ _ => ⟨0, "", ""⟩) emptyFS).2.2 :=
  ⟨(c6_exit_codes ["x"] true true [] (fun _ _ _ => ⟨0, "", ""⟩) emptyFS).1.mpr
      (Or.inl (by decide)),
   (c6_exit_codes ["x"] true true [] (fun _ _ _ => ⟨0, "", ""⟩) emptyFS).2.1 (by decide)⟩

/-- Claim C7: when the target directory is missing the run reports an error
line naming it, leaves the file table unchanged (zero artifacts), does not
crash, and the process still exits with status 0. -/
theorem c7_missing_target (a0 a1 a2 a3 a4 a5 : String) (wf : List Path) (d : DiffFn)
    (fs : FSState) :
    (script_main [a0, a1, a2, a3, a4, a5] true false wf d fs).1 = 0
    ∧ (script_main [a0, a1, a2, a3, a4, a5] true false wf d fs).2.1.files = fs.files
    ∧ errLine ("The target directory does not exist or is not a directory: "
        ++ pathToStr (strToPath a1 ++ strToPath a2))
      ∈ (script_main [a0, a1, a2, a3, a4, a5] true false wf d fs).2.2 :=
  ⟨rfl, ite_makedirs_files _ _ _,
   List.mem_cons_of_mem _ (List.mem_cons_self _ _)⟩

/-- Claim C9: for every walked file the mirrored output subdirectory exists
after the scan; the set of directories only grows; and it is independent of
the diff outcomes (the subdirectory is created before the diff runs and is
never removed, even when the artifact is deleted, so empty directories can
remain). -/
theorem c9_output_dirs (repo target : Path) (src dst : String) (outBase : Path)
    (wf : List Path) (d : DiffFn) (fs : FSState) (f : Path) (hf : f ∈ wf) :
    outputSubdir repo outBase f
      ∈ (scan_and_create_patches repo target src dst outBase true wf d fs).1.dirs
    ∧ (∀ dp ∈ fs.dirs,
        dp ∈ (scan_and_create_patches repo target src dst outBase true wf d fs).1.dirs)
    ∧ (∀ d₂ : DiffFn,
        (scan_and_create_patches repo target src dst outBase true wf d fs).1.dirs =
          (scan_and_create_patches repo target src dst outBase true wf d₂ fs).1.dirs) :=
  ⟨processFiles_dirs_mem repo src dst outBase d wf fs f hf,
   fun dp h => processFiles_dirs_mono repo src dst outBase d wf fs dp h,
   fun d₂ => processFiles_dirs_indep repo src dst outBase d d₂ wf fs fs rfl⟩

/-- Claim C9 witness: with a failing diff for `r/s/a.c`, the mirrored
subdirectory `o/s` still exists after the scan, old directories persist,
and the directory set equals the one of any other diff outcome. -/
theorem c9_output_dirs_witness :
    outputSubdir ["r"] ["o"] ["r", "s", "a.c"]
      ∈ (scan_and_create_patches ["r"] ["s"] "v1" "v2" ["o"] true [["r", "s", "a.c"]]
          (fun _ _ _ => ⟨1, "", "boom"⟩) emptyFS).1.dirs
    ∧ (∀ dp ∈ emptyFS.dirs,
        dp ∈ (scan_and_create_patches ["r"] ["s"] "v1" "v2" ["o"] true [["r", "s", "a.c"]]
          (fun _ _ _ => ⟨1, "", "boom"⟩) emptyFS).1.dirs)
    ∧ (∀ d₂ : DiffFn,
        (scan_and_create_patches ["r"] ["s"] "v1" "v2" ["o"] true [["r", "s", "a.c"]]
            (fun _ _ _ => ⟨1, "", "boom"⟩) emptyFS).1.dirs =
          (scan_and_create_patches ["r"] ["s"] "v1" "v2" ["o"] true [["r", "s", "a.c"]]
            d₂ emptyFS).1.dirs) :=
  c9_output_dirs ["r"] ["s"] "v1" "v2" ["o"] [["r", "s", "a.c"]]
    (fun _ _ _ => ⟨1, "", "boom"⟩) emptyFS ["r", "s", "a.c"] (by decide)

/-- Claim C10: even with a missing target directory, the output base
directory has been created (before the target check runs), while no
artifact is produced and the process exits 0. -/
theorem c10_outbase_created (a0 a1 a2 a3 a4 a5 : String) (wf : List Path) (d : DiffFn)
    (fs : FSState) :
    strToPath a5 ∈ (script_main [a0, a1, a2, a3, a4, a5] true false wf d fs).2.1.dirs
    ∧ (script_main [a0, a1, a2, a3, a4, a5] true false wf d fs).2.1.files = fs.files
    ∧ (script_main [a0, a1, a2, a3, a4, a5] true false wf d fs).1 = 0 := by
  refine ⟨?_, ite_makedirs_files _ _ _, rfl⟩
  show strToPath a5 ∈ (if strToPath a5 ∈ fs.dirs then fs else makedirs (strToPath a5) fs).dirs
  by_cases hmem : strToPath a5 ∈ fs.dirs
  · rw [if_pos hmem]
    exact hmem
  · rw [if_neg hmem]
    exact List.mem_append_left _ ((List.mem_inits _ _).mpr ⟨[], by simp⟩)

theorem repoPrefix_of_targetPrefix (r t : Path) (wf : List Path)
    (hp : ∀ g ∈ wf, ∃ s, s ≠ [] ∧ g = r ++ t ++ s) :
    ∀ g ∈ wf, ∃ s, s ≠ [] ∧ g = r ++ s := by
  intro g hg
  obtain ⟨s, hs, hge⟩ := hp g hg
  exact ⟨t ++ s, fun hcon => hs (List.append_eq_nil.mp hcon).2,
    by rw [hge, List.append_assoc]⟩

/-- Claim C1: after a fresh successful run, every file in the output table
is non-empty and is the artifact of exactly one walked source file whose
diff between the two revisions succeeded, containing exactly that diff's
standard output. -/
theorem c1_persistent_artifacts (a0 a1 a2 a3 a4 a5 : String) (wf : List Path)
    (d : DiffFn) (fs : FSState) (hfs : fs.files = []) (hN : wf.Nodup)
    (hp : ∀ g ∈ wf, ∃ s, s ≠ [] ∧ g = strToPath a1 ++ strToPath a2 ++ s)
    (p : Path) (c : String)
    (hmem : (p, c) ∈ (script_main [a0, a1, a2, a3, a4, a5] true true wf d fs).2.1.files) :
    c ≠ "" ∧ ∃! f, f ∈ wf ∧ p = artifactPath (strToPath a1) (strToPath a5) f
      ∧ (d a3 a4 f).exitCode = 0 ∧ c = (d a3 a4 f).stdout := by
  have hp' := repoPrefix_of_targetPrefix (strToPath a1) (strToPath a2) wf hp
  have hkey : KeysNodup (script_main [a0, a1, a2, a3, a4, a5] true true wf d fs).2.1.files :=
    script_main_keys_tt a0 a1 a2 a3 a4 a5 wf d fs (by rw [KeysNodup, hfs]; simp)
  have hlook := (mem_iff_lookupFile hkey p c).mp hmem
  rw [script_main_lookup a0 a1 a2 a3 a4 a5 wf d fs p hN hp'] at hlook
  cases hfind : wf.find? (fun g => decide (artifactPath (strToPath a1) (strToPath a5) g = p)) with
  | none =>
    rw [hfind, hfs] at hlook
    exact absurd hlook (by simp [lookupFile])
  | some g =>
    rw [hfind] at hlook
    have hgmem := List.mem_of_find?_eq_some hfind
    have hga : artifactPath (strToPath a1) (strToPath a5) g = p := of_decide_eq_true
      (List.find?_some
        (p := fun g => decide (artifactPath (strToPath a1) (strToPath a5) g = p)) hfind)
    simp only [expectedArtifact] at hlook
    by_cases hc : (d a3 a4 g).exitCode = 0 ∧ (d a3 a4 g).stdout.length ≠ 0
    · rw [if_pos hc] at hlook
      have hcs : c = (d a3 a4 g).stdout := (Option.some.inj hlook).symm
      refine ⟨?_, g, ⟨hgmem, hga.symm, hc.1, hcs⟩, ?_⟩
      · rw [hcs]
        intro hnil
        exact hc.2 (by rw [hnil]; rfl)
      · rintro y ⟨hymem, hyp, _, _⟩
        exact artifactPath_inj _ _ (hp' y hymem) (hp' g hgmem) (by rw [← hyp, hga])
    · rw [if_neg hc] at hlook
      exact absurd hlook (by simp)

/-- Claim C1 witness: one walked file with a successful one-byte diff
yields exactly the artifact `out/src/a.c.patch` with that content. -/
theorem c1_persistent_artifacts_witness :
    ("x" : String) ≠ ""
    ∧ ∃! f, f ∈ [(["repo", "src", "a.c"] : Path)]
        ∧ (["out", "src", "a.c.patch"] : Path)
            = artifactPath (strToPath "repo") (strToPath "out") f
        ∧ (((fun _ _ _ => ⟨0, "x", ""⟩) : DiffFn) "v1" "v2" f).exitCode = 0
        ∧ "x" = (((fun _ _ _ => ⟨0, "x", ""⟩) : DiffFn) "v1" "v2" f).stdout :=
  c1_persistent_artifacts "cp" "repo" "src" "v1" "v2" "out" [["repo", "src", "a.c"]]
    (fun _ _ _ => ⟨0, "x", ""⟩) emptyFS rfl (by decide)
    (fun f hf => ⟨["a.c"], by decide, by rw [List.mem_singleton.mp hf]; rfl⟩)
    ["out", "src", "a.c.patch"] "x" (by decide)

/-- Claim C2: a file whose diff exits non-zero gets its captured stderr
reported on the error stream, leaves no artifact at its artifact path, the
run still processes every walked file, and the process exit code stays 0. -/
theorem c2_per_file_failure (a0 a1 a2 a3 a4 a5 : String) (wf : List Path) (d : DiffFn)
    (fs : FSState) (f : Path) (hf : f ∈ wf) (hfail : (d a3 a4 f).exitCode ≠ 0)
    (hN : wf.Nodup)
    (hp : ∀ g ∈ wf, ∃ s, s ≠ [] ∧ g = strToPath a1 ++ strToPath a2 ++ s) :
    (script_main [a0, a1, a2, a3, a4, a5] true true wf d fs).1 = 0
    ∧ errLine ("Failed to create patch for " ++ pathToStr f ++ ": " ++ (d a3 a4 f).stderr)
        ∈ (script_main [a0, a1, a2, a3, a4, a5] true true wf d fs).2.2
    ∧ lookupFile (script_main [a0, a1, a2, a3, a4, a5] true true wf d fs).2.1.files
        (artifactPath (strToPath a1) (strToPath a5) f) = none
    ∧ ∀ g ∈ wf,
        logLine ("Creating patch for " ++ pathToStr g ++ " -> " ++ (basenameD g ++ ".patch"))
          ∈ (script_main [a0, a1, a2, a3, a4, a5] true true wf d fs).2.2 := by
  have hp' := repoPrefix_of_targetPrefix (strToPath a1) (strToPath a2) wf hp
  refine ⟨script_main_goodrepo_exit _ _ _ _ _ rfl, ?_, ?_, ?_⟩
  · apply script_main_tt_events_mem
    apply processFiles_events_mem _ _ _ _ _ wf _ f hf
    rw [create_patch_events_fail _ _ _ _ _ _ _ hfail]
    exact List.mem_cons_of_mem _ (List.mem_cons_of_mem _ (List.mem_cons_self _ _))
  · rw [script_main_lookup a0 a1 a2 a3 a4 a5 wf d fs _ hN hp']
    cases hfind : wf.find? (fun g => decide (artifactPath (strToPath a1) (strToPath a5) g
        = artifactPath (strToPath a1) (strToPath a5) f)) with
    | none =>
      exact absurd (decide_eq_true rfl) (List.find?_eq_none.mp hfind f hf)
    | some g =>
      have hga : artifactPath (strToPath a1) (strToPath a5) g
          = artifactPath (strToPath a1) (strToPath a5) f := of_decide_eq_true
        (List.find?_some (p := fun g => decide (artifactPath (strToPath a1) (strToPath a5) g
          = artifactPath (strToPath a1) (strToPath a5) f)) hfind)
      have hgf : g = f := artifactPath_inj _ _
        (hp' g (List.mem_of_find?_eq_some hfind)) (hp' f hf) hga
      rw [hgf]
      simp only [expectedArtifact]
      rw [if_neg (fun hc => hfail hc.1)]
  · intro g hg
    apply script_main_tt_events_mem
    apply processFiles_events_mem _ _ _ _ _ wf _ g hg
    exact create_patch_events_mem_log _ _ _ _ _ _ _

/-- Claim C2 witness: a failing diff (`exit 1`, stderr `boom`) for the only
walked file: exit 0, the error line appears, no artifact remains, and the
file was processed. -/
theorem c2_per_file_failure_witness :
    (script_main ["cp", "repo", "src", "v1", "v2", "out"] true true
        [["repo", "src", "a.c"]] (fun _ _ _ => ⟨1, "", "boom"⟩) emptyFS).1 = 0
    ∧ errLine ("Failed to create patch for " ++ pathToStr ["repo", "src", "a.c"] ++ ": "
        ++ (((fun _ _ _ => ⟨1, "", "boom"⟩) : DiffFn) "v1" "v2" ["repo", "src", "a.c"]).stderr)
        ∈ (script_main ["cp", "repo", "src", "v1", "v2", "out"] true true
            [["repo", "src", "a.c"]] (fun _ _ _ => ⟨1, "", "boom"⟩) emptyFS).2.2
    ∧ lookupFile (script_main ["cp", "repo", "src", "v1", "v2", "out"] true true
          [["repo", "src", "a.c"]] (fun _ _ _ => ⟨1, "", "boom"⟩) emptyFS).2.1.files
        (artifactPath (strToPath "repo") (strToPath "out") ["repo", "src", "a.c"]) = none
    ∧ ∀ g ∈ [(["repo", "src", "a.c"] : Path)],
        logLine ("Creating patch for " ++ pathToStr g ++ " -> " ++ (basenameD g ++ ".patch"))
          ∈ (script_main ["cp", "repo", "src", "v1", "v2", "out"] true true
              [["repo", "src", "a.c"]] (fun _ _ _ => ⟨1, "", "boom"⟩) emptyFS).2.2 :=
  c2_per_file_failure "cp" "repo" "src" "v1" "v2" "out" [["repo", "src", "a.c"]]
    (fun _ _ _ => ⟨1, "", "boom"⟩) emptyFS ["repo", "src", "a.c"] (by decide) (by decide)
    (by decide) (fun f hf => ⟨["a.c"], by decide, by rw [List.mem_singleton.mp hf]; rfl⟩)

/-- Claim C3: a file whose diff succeeds with empty output leaves no
artifact at its artifact path and the skip is logged. -/
theorem c3_empty_diff (a0 a1 a2 a3 a4 a5 : String) (wf : List Path) (d : DiffFn)
    (fs : FSState) (f : Path) (hf : f ∈ wf) (h0 : (d a3 a4 f).exitCode = 0)
    (h1 : (d a3 a4 f).stdout = "") (hN : wf.Nodup)
    (hp : ∀ g ∈ wf, ∃ s, s ≠ [] ∧ g = strToPath a1 ++ strToPath a2 ++ s) :
    lookupFile (script_main [a0, a1, a2, a3, a4, a5] true true wf d fs).2.1.files
        (artifactPath (strToPath a1) (strToPath a5) f) = none
    ∧ logLine ("Patch for " ++ pathToStr f ++ " is empty, skipped.")
        ∈ (script_main [a0, a1, a2, a3, a4, a5] true true wf d fs).2.2 := by
  have hp' := repoPrefix_of_targetPrefix (strToPath a1) (strToPath a2) wf hp
  constructor
  · rw [script_main_lookup a0 a1 a2 a3 a4 a5 wf d fs _ hN hp']
    cases hfind : wf.find? (fun g => decide (artifactPath (strToPath a1) (strToPath a5) g
        = artifactPath (strToPath a1) (strToPath a5) f)) with
    | none =>
      exact absurd (decide_eq_true rfl) (List.find?_eq_none.mp hfind f hf)
    | some g =>
      have hga : artifactPath (strToPath a1) (strToPath a5) g
          = artifactPath (strToPath a1) (strToPath a5) f := of_decide_eq_true
        (List.find?_some (p := fun g => decide (artifactPath (strToPath a1) (strToPath a5) g
          = artifactPath (strToPath a1) (strToPath a5) f)) hfind)
      have hgf : g = f := artifactPath_inj _ _
        (hp' g (List.mem_of_find?_eq_some hfind)) (hp' f hf) hga
      rw [hgf]
      simp only [expectedArtifact]
      rw [if_neg (fun hc => hc.2 (by rw [h1]; rfl))]
  · apply script_main_tt_events_mem
    apply processFiles_events_mem _ _ _ _ _ wf _ f hf
    rw [create_patch_events_empty _ _ _ _ _ _ _ h0 h1]
    exact List.mem_cons_of_mem _ (List.mem_cons_of_mem _ (List.mem_cons_self _ _))

/-- Claim C3 witness: an empty successful diff for the only walked file
leaves no artifact and logs the skip. -/
theorem c3_empty_diff_witness :
    lookupFile (script_main ["cp", "repo", "src", "v1", "v2", "out"] true true
          [["repo", "src", "a.c"]] (fun _ _ _ => ⟨0, "", ""⟩) emptyFS).2.1.files
        (artifactPath (strToPath "repo") (strToPath "out") ["repo", "src", "a.c"]) = none
    ∧ logLine ("Patch for " ++ pathToStr ["repo", "src", "a.c"] ++ " is empty, skipped.")
        ∈ (script_main ["cp", "repo", "src", "v1", "v2", "out"] true true
            [["repo", "src", "a.c"]] (fun _ _ _ => ⟨0, "", ""⟩) emptyFS).2.2 :=
  c3_empty_diff "cp" "repo" "src" "v1" "v2" "out" [["repo", "src", "a.c"]]
    (fun _ _ _ => ⟨0, "", ""⟩) emptyFS ["repo", "src", "a.c"] (by decide) (by decide)
    (by decide) (by decide)
    (fun f hf => ⟨["a.c"], by decide, by rw [List.mem_singleton.mp hf]; rfl⟩)

theorem script_main_tf_files (a0 a1 a2 a3 a4 a5 : String) (wf : List Path) (d : DiffFn)
    (X : FSState) :
    (script_main [a0, a1, a2, a3, a4, a5] true false wf d X).2.1.files = X.files :=
  ite_makedirs_files _ _ _

/-- Claim C8: with the diff modeled as a deterministic function of the two
revisions and the file, running the tool a second time with identical
arguments over the state left by the first run yields exactly the same set
of artifact files with the same contents. -/
theorem c8_idempotent (a0 a1 a2 a3 a4 a5 : String) (rI tI : Bool) (wf : List Path)
    (d : DiffFn) (fs : FSState) (hfs : fs.files = []) (hN : wf.Nodup)
    (hp : ∀ g ∈ wf, ∃ s, s ≠ [] ∧ g = strToPath a1 ++ strToPath a2 ++ s)
    (p : Path) (c : String) :
    ((p, c) ∈ (script_main [a0, a1, a2, a3, a4, a5] rI tI wf d
        (script_main [a0, a1, a2, a3, a4, a5] rI tI wf d fs).2.1).2.1.files
      ↔ (p, c) ∈ (script_main [a0, a1, a2, a3, a4, a5] rI tI wf d fs).2.1.files) := by
  have hp' := repoPrefix_of_targetPrefix (strToPath a1) (strToPath a2) wf hp
  cases rI
  · exact Iff.rfl
  · cases tI
    · rw [script_main_tf_files a0 a1 a2 a3 a4 a5 wf d
          ((script_main [a0, a1, a2, a3, a4, a5] true false wf d fs).2.1),
        script_main_tf_files a0 a1 a2 a3 a4 a5 wf d fs]
    · have hkey0 : KeysNodup fs.files := by rw [KeysNodup, hfs]; simp
      have hkey1 := script_main_keys_tt a0 a1 a2 a3 a4 a5 wf d fs hkey0
      have hkey2 := script_main_keys_tt a0 a1 a2 a3 a4 a5 wf d
        ((script_main [a0, a1, a2, a3, a4, a5] true true wf d fs).2.1) hkey1
      rw [mem_iff_lookupFile hkey2 p c, mem_iff_lookupFile hkey1 p c]
      rw [script_main_lookup a0 a1 a2 a3 a4 a5 wf d
          ((script_main [a0, a1, a2, a3, a4, a5] true true wf d fs).2.1) p hN hp',
        script_main_lookup a0 a1 a2 a3 a4 a5 wf d fs p hN hp']
      cases hfind : wf.find? (fun g =>
          decide (artifactPath (strToPath a1) (strToPath a5) g = p)) with
      | some g => exact Iff.rfl
      | none => exact Iff.rfl

/-- Claim C8 witness: two identical runs over one walked file with a
successful diff agree on every artifact entry. -/
theorem c8_idempotent_witness :
    ((["out", "src", "a.c.patch"] : Path), "x") ∈
      (script_main ["cp", "repo", "src", "v1", "v2", "out"] true true
        [["repo", "src", "a.c"]] (fun _ _ _ => ⟨0, "x", ""⟩)
        (script_main ["cp", "repo", "src", "v1", "v2", "out"] true true
          [["repo", "src", "a.c"]] (fun _ _ _ => ⟨0, "x", ""⟩) emptyFS).2.1).2.1.files
    ↔ ((["out", "src", "a.c.patch"] : Path), "x") ∈
      (script_main ["cp", "repo", "src", "v1", "v2", "out"] true true
        [["repo", "src", "a.c"]] (fun _ _ _ => ⟨0, "x", ""⟩) emptyFS).2.1.files :=
  c8_idempotent "cp" "repo" "src" "v1" "v2" "out" true true [["repo", "src", "a.c"]]
    (fun _ _ _ => ⟨0, "x", ""⟩) emptyFS rfl (by decide)
    (fun f hf => ⟨["a.c"], by decide, by rw [List.mem_singleton.mp hf]; rfl⟩)
    ["out", "src", "a.c.patch"] "x"

end CreatePatch
